import Mathlib

/-!
Verification development for the `social-video-crawl` repository.

The Python sources are shallowly embedded as executable Lean definitions:
pure string/URL/path manipulation is translated directly, and the effectful
calls (yt-dlp invocations, filesystem probes, clock reads) are supplied by
explicit environment records so that the first-party control flow — which is
what the claims are about — is modelled exactly.  Python exceptions are
modelled with `Except String`.
-/

namespace SocialVideoCrawl

/-! ## Python string primitives

`strLower` models `str.lower` on ASCII letters (the only characters the
hostname tables contain); `hasSub s sub` models Python's `sub in s`
substring test. -/

def strLower (s : String) : String := ⟨s.data.map Char.toLower⟩

/-- `infixOfList sub l` decides whether `sub` occurs contiguously in `l`. -/
def infixOfList (sub : List Char) : List Char → Bool
  | [] => sub.isEmpty
  | c :: t => sub.isPrefixOf (c :: t) || infixOfList sub t

def hasSub (s sub : String) : Bool := infixOfList sub.data s.data

/-- `str.startswith` / prefix test, structurally on the character lists. -/
def strStartsWith (s pre : String) : Bool := pre.data.isPrefixOf s.data

def strEndsWith (s suffix : String) : Bool :=
  suffix.data.reverse.isPrefixOf s.data.reverse

/-- `str.split(sep)` for a single-character separator. -/
def splitChar (sep : Char) : List Char → List String
  | [] => [""]
  | c :: t =>
    if c == sep then "" :: splitChar sep t
    else
      match splitChar sep t with
      | [] => [⟨[c]⟩]
      | r :: rs => (⟨c :: r.data⟩) :: rs

/-- `"/".join(...)`. -/
def joinSlash : List String → String
  | [] => ""
  | [x] => x
  | x :: xs => x ++ "/" ++ joinSlash xs

/-! ## `urllib.parse` netloc extraction

Models the part of CPython's `urlsplit` that computes `netloc`
(`urllib/parse.py`): tab/CR/LF bytes are removed, a leading
`scheme:` (first char an ASCII letter, all chars in `scheme_chars`) is
stripped, and if the remainder begins with `//` the netloc runs up to the
first `/`, `?` or `#`.  A netloc containing `[` without `]` (or vice versa)
raises `ValueError("Invalid IPv6 URL")`, which we model as `.error`. -/

def schemeChars : List Char :=
  "abcdefghijklmnopqrstuvwxyzABCDEFGHIJKLMNOPQRSTUVWXYZ0123456789+-.".data

def stripUnsafe (s : String) : String :=
  ⟨s.data.filter (fun c => !(c == '\t' || c == '\r' || c == '\n'))⟩

def splitScheme (url : String) : String :=
  let l := url.data
  match l.findIdx? (· == ':') with
  | some i =>
    if i = 0 then url
    else if (match l.head? with | some c => c.isAlpha | none => false)
            && (l.take i).all (fun c => schemeChars.contains c)
    then ⟨l.drop (i + 1)⟩
    else url
  | none => url

def pyNetloc (url0 : String) : Except String String :=
  let url := splitScheme (stripUnsafe url0)
  if strStartsWith url "//" then
    let netloc : String :=
      ⟨(url.data.drop 2).takeWhile (fun c => !(c == '/' || c == '?' || c == '#'))⟩
    let hasL := netloc.data.contains '['
    let hasR := netloc.data.contains ']'
    if (hasL && !hasR) || (hasR && !hasL) then .error "Invalid IPv6 URL"
    else .ok netloc
  else .ok ""

/-! ## Platform classifier

`src/src/social_video_downloader.py`, lines 21–35
(`SocialVideoDownloader.identify_platform`).  The Python code calls
`urlparse(url).netloc.lower()` — which can raise (see `pyNetloc`) — and then
tests hostname substrings in a fixed order.  The outer `Except` records the
fact that the exception propagates out of `identify_platform` (there is no
try/except in the function). -/

def classify (domain : String) : String :=
  if hasSub domain "tiktok.com" then "tiktok"
  else if hasSub domain "instagram.com" then "instagram"
  else if hasSub domain "facebook.com" || hasSub domain "fb.com" then "facebook"
  else if hasSub domain "youtube.com" || hasSub domain "youtu.be" then "youtube"
  else if hasSub domain "twitter.com" || hasSub domain "x.com" then "twitter"
  else "unknown"

def identify_platform (url : String) : Except String String :=
  (pyNetloc url).map (fun n => classify (strLower n))

/-! ## Collection detection

`src/src/social_video_downloader.py`, lines 37–44
(`SocialVideoDownloader.is_playlist_or_channel`).  Note the tests are on the
whole URL string, not on the parsed hostname, exactly as in the source. -/

def is_playlist_or_channel (url : String) : Bool :=
  if hasSub url "youtube.com" then
    hasSub url "/playlist?" || hasSub url "/channel/" || hasSub url "/@" ||
      hasSub url "/c/"
  else if hasSub url "tiktok.com/@" && !hasSub url "/video/" then true
  else false

/-! ## Title sanitisation

`src/src/social_video_downloader.py`, lines 78–81: the `safe_title`
computation inside `download_single_video`:
`"".join(c for c in t if c.isalnum() or c in (" ", "-", "_")).rstrip()[:100]`.
`Char.isAlphanum` is the ASCII fragment of Python's Unicode-aware
`str.isalnum`; the charset/length properties proved below do not depend on
which alphanumeric predicate is used. -/

def allowedChar (c : Char) : Bool := c.isAlphanum || c == ' ' || c == '-' || c == '_'

def safe_title (title : String) : String :=
  let filtered := title.data.filter allowedChar
  let stripped := (filtered.reverse.dropWhile Char.isWhitespace).reverse
  ⟨stripped.take 100⟩

/-! ## POSIX path primitives

Models of `os.path.join`, `os.path.normpath` and `os.path.abspath`
(CPython `posixpath.py`), used by the download layout and by the
`GET /files/...` endpoint. -/

def pyJoin2 (a b : String) : String :=
  if strStartsWith b "/" then b
  else if a = "" || strEndsWith a "/" then a ++ b
  else a ++ "/" ++ b

def pyJoin (parts : List String) : String :=
  match parts with
  | [] => ""
  | p :: rest => rest.foldl pyJoin2 p

/-- The component loop of `posixpath.normpath`: `none` components are never
produced here; `comps` is processed left to right with a reversed
accumulator (`acc.head?` is Python's `new_comps[-1]`). -/
def normComps (initialSlashes : Nat) : List String → List String → List String
  | acc, [] => acc.reverse
  | acc, comp :: rest =>
    if comp = "" || comp = "." then normComps initialSlashes acc rest
    else if comp ≠ ".." || (initialSlashes = 0 && acc.isEmpty) ||
            (match acc.head? with | some c => c = ".." | none => false) then
      normComps initialSlashes (comp :: acc) rest
    else
      match acc with
      | [] => normComps initialSlashes [] rest
      | _ :: acc' => normComps initialSlashes acc' rest

def normpath (path : String) : String :=
  if path = "" then "."
  else
    let initialSlashes : Nat :=
      if strStartsWith path "/" then
        if strStartsWith path "//" && !strStartsWith path "///" then 2 else 1
      else 0
    let comps := splitChar '/' path.data
    let newComps := normComps initialSlashes [] comps
    let joined := joinSlash newComps
    let out := String.mk (List.replicate initialSlashes '/') ++ joined
    if out = "" then "." else out

def abspath (cwd path : String) : String :=
  if strStartsWith path "/" then normpath path else normpath (pyJoin2 cwd path)

/-! ## Single-item downloader

`src/src/social_video_downloader.py`, lines 46–202
(`SocialVideoDownloader.download_single_video`).

The effectful yt-dlp / filesystem / clock calls are supplied by an `SEnv`
record; everything else (control flow, path construction, which fields are
set when) is translated from the source.  The outer `Except` of
`download_single_video` records exceptions that escape the function: the
only statement outside the `try` block is the `identify_platform` call
(line 61), which can raise (see `pyNetloc`).  Exceptions inside the `try`
are caught at line 198 and recorded in the result.  The `os.rename` calls
and the dead removal block at lines 182–194 (`'actual_video_path' in
locals()` can only hold when `video` was true, making `not video and ...`
unsatisfiable within one call) are modelled as non-raising. -/

structure Downloader where
  download_dir : String
  current_date : String

/-- `SocialVideoDownloader.__init__` (lines 12–16): the instance's
`download_dir` is the date-stamped subdirectory of the configured base. -/
def Downloader.init (base date : String) : Downloader :=
  { download_dir := pyJoin2 base date, current_date := date }

structure Paths where
  video : Option String
  audio : Option String
  subtitles : List (String × String)
deriving Repr, DecidableEq

def Paths.empty : Paths := ⟨none, none, []⟩

/-- Per-call outcomes of the external calls made by
`download_single_video`: each `Except` is the outcome of one yt-dlp /
filesystem operation, each `Bool` an `os.path.exists` probe, `now` the
`str(int(time.time()))` timestamp. -/
structure SEnv where
  now : String
  extractTitle : Except String String
  mkdirOk : Except String Unit
  downloadVideo : Except String Unit
  videoExists : Bool
  videoSubExists : String → Bool
  downloadAudio : Except String Unit
  audioExists : Bool
  downloadSubs : Except String Unit
  soloSubExists : String → Bool

structure DownloadResult where
  url : String
  platform : String
  timestamp : String
  success : Bool
  paths : Paths
  error : Option String
deriving Repr, DecidableEq

/-- The two language codes hard-coded at lines 113 and 170. -/
def subLangs : List String := ["vie-VN", "eng-US"]

/-- The subtitle relocation loops (lines 112–127 and 170–180): each
language whose source file exists is renamed to `sub-<lang>.vtt` inside the
item folder and recorded. -/
def collectSubs (folder : String) (present : String → Bool) : List (String × String) :=
  (subLangs.filter present).map
    (fun l => (l, pyJoin2 folder ("sub-" ++ l ++ ".vtt")))

/-- Video branch, lines 87–127.  On an exception the partial paths built so
far accompany the error (the Python `result` dict keeps them). -/
def videoStep (env : SEnv) (folder : String) (video subtitles : Bool) :
    Except (Paths × String) Paths :=
  if video then
    match env.downloadVideo with
    | .error e => .error (Paths.empty, e)
    | .ok _ =>
      let pv := if env.videoExists then some (pyJoin2 folder "video.mp4") else none
      let subs := if subtitles then collectSubs folder env.videoSubExists else []
      .ok ⟨pv, none, subs⟩
  else .ok Paths.empty

/-- Audio branch, lines 130–151. -/
def audioStep (env : SEnv) (folder : String) (audio : Bool) (p : Paths) :
    Except (Paths × String) Paths :=
  if audio then
    match env.downloadAudio with
    | .error e => .error (p, e)
    | .ok _ =>
      if env.audioExists then .ok { p with audio := some (pyJoin2 folder "audio.wav") }
      else .ok p
  else .ok p

/-- Standalone-subtitle branch, lines 154–194 (run only when subtitles were
requested and none were captured in the video branch). -/
def subsStep (env : SEnv) (folder : String) (subtitles : Bool) (p : Paths) :
    Except (Paths × String) Paths :=
  if subtitles && p.subtitles.isEmpty then
    match env.downloadSubs with
    | .error e => .error (p, e)
    | .ok _ => .ok { p with subtitles := collectSubs folder env.soloSubExists }
  else .ok p

/-- The body of the `try` block, lines 73–196. -/
def tryBody (dl : Downloader) (env : SEnv) (video audio subtitles : Bool) :
    Except (Paths × String) Paths :=
  match env.extractTitle with
  | .error e => .error (Paths.empty, e)
  | .ok title =>
    let folder := pyJoin2 dl.download_dir (safe_title title)
    match env.mkdirOk with
    | .error e => .error (Paths.empty, e)
    | .ok _ =>
      match videoStep env folder video subtitles with
      | .error pe => .error pe
      | .ok p1 =>
        match audioStep env folder audio p1 with
        | .error pe => .error pe
        | .ok p2 => subsStep env folder subtitles p2

def download_single_video (dl : Downloader) (env : SEnv) (url : String)
    (video audio subtitles : Bool) : Except String DownloadResult :=
  match identify_platform url with
  | .error e => .error e
  | .ok platform =>
    let base : DownloadResult :=
      ⟨url, platform, env.now, false, Paths.empty, none⟩
    .ok (match tryBody dl env video audio subtitles with
         | .ok p => { base with success := true, paths := p }
         | .error (p, e) => { base with paths := p, error := some e })

/-! ## Batch orchestrator

`src/src/social_video_downloader.py`, lines 204–285
(`download_playlist_or_channel`) and 287–355 (`download_from_urls`). -/

/-- The `video`/`audio`/`subtitles` selection dict.  `download_options.get(k, True)`
is field access; the `None` default is modelled by `Option DownloadOptions`
at the call sites, exactly as in the signatures. -/
structure DownloadOptions where
  video : Bool
  audio : Bool
  subtitles : Bool
deriving Repr, DecidableEq

def DownloadOptions.all : DownloadOptions := ⟨true, true, true⟩

/-- One member of a flat playlist extraction.  `url = none` covers a missing
or empty (falsy) `url` field; `id` is the already-stringified value of
`entry.get('id')` interpolated at line 248. -/
structure Entry where
  url : Option String
  id : String
deriving Repr, DecidableEq

/-- Line 246–249: `entry.get("url") or f"https://www.youtube.com/watch?v={entry.get('id')}"`. -/
def entryUrl (e : Entry) : String :=
  match e.url with
  | some u => if u = "" then "https://www.youtube.com/watch?v=" ++ e.id else u
  | none => "https://www.youtube.com/watch?v=" ++ e.id

/-- Effect environment for a batch run: `senv u` gives the per-call outcomes
of `download_single_video(u)`, and `extract u` the outcome of the flat
`extract_info` at line 237 — `.error` a raised exception, `.ok none` an info
dict without an `"entries"` key, `.ok (some es)` an entries list in which
`none` stands for a falsy (e.g. `None`) entry skipped by `if entry:` at
line 245. -/
structure Env where
  senv : String → SEnv
  extract : String → Except String (Option (List (Option Entry)))

structure PlaylistResult where
  url : String
  type_ : String
  total_videos : Nat
  successful_downloads : Nat
  failed_downloads : Nat
  videos : List DownloadResult
  error : Option String
deriving Repr, DecidableEq

/-- Outcome of the entry loop at lines 244–265: success count, failure
count, per-video results, and the exception (if any) that aborted the loop
— an exception inside the loop is caught by the `except` at line 281, with
the tallies accumulated so far kept. -/
structure ELoop where
  succ : Nat
  fail : Nat
  vids : List DownloadResult
  exc : Option String
deriving Repr

def processEntries (dl : Downloader) (env : Env) (opts : DownloadOptions) :
    List (Option Entry) → ELoop
  | [] => ⟨0, 0, [], none⟩
  | none :: rest => processEntries dl env opts rest
  | some e :: rest =>
    let u := entryUrl e
    match download_single_video dl (env.senv u) u opts.video opts.audio opts.subtitles with
    | .error ex => ⟨0, 0, [], some ex⟩
    | .ok r =>
      let acc := processEntries dl env opts rest
      ⟨(if r.success then 1 else 0) + acc.succ,
       (if r.success then 0 else 1) + acc.fail,
       r :: acc.vids, acc.exc⟩

def download_playlist_or_channel (dl : Downloader) (env : Env) (url : String)
    (opts? : Option DownloadOptions) : PlaylistResult :=
  let opts := opts?.getD DownloadOptions.all
  let ty := if hasSub url "playlist" then "playlist" else "channel"
  match env.extract url with
  | .error e => ⟨url, ty, 0, 0, 0, [], some e⟩
  | .ok none =>
    -- lines 266–279: single video, not a playlist (call is inside the try)
    match download_single_video dl (env.senv url) url opts.video opts.audio
        opts.subtitles with
    | .error e => ⟨url, ty, 0, 0, 0, [], some e⟩
    | .ok r =>
      ⟨url, ty, 1, if r.success then 1 else 0, if r.success then 0 else 1, [r], none⟩
  | .ok (some es) =>
    -- line 241: total_videos := len(entries) is set before the loop runs
    let acc := processEntries dl env opts es
    ⟨url, ty, es.length, acc.succ, acc.fail, acc.vids, acc.exc⟩

inductive DownloadItem where
  | single (r : DownloadResult)
  | collection (p : PlaylistResult)
deriving Repr, DecidableEq

/-- Accumulator of the URL loop at lines 312–341. -/
structure UAcc where
  total_videos : Nat
  succ : Nat
  fail : Nat
  items : List DownloadItem
deriving Repr

def UAcc.add (a b : UAcc) : UAcc :=
  ⟨a.total_videos + b.total_videos, a.succ + b.succ, a.fail + b.fail,
   a.items ++ b.items⟩

/-- The URL loop of `download_from_urls`.  The single-video branch (lines
329–341) is *not* inside any try: an exception from
`download_single_video` — and the `AttributeError` from
`download_options.get` when `download_options` is `None`, since
`download_from_urls` (unlike `download_playlist_or_channel`) never fills in
the `None` default — propagates out of the whole batch call. -/
def processUrls (dl : Downloader) (env : Env) (opts? : Option DownloadOptions) :
    List String → Except String UAcc
  | [] => .ok ⟨0, 0, 0, []⟩
  | u :: rest =>
    if is_playlist_or_channel u then
      let p := download_playlist_or_channel dl env u opts?
      match processUrls dl env opts? rest with
      | .error e => .error e
      | .ok acc =>
        .ok (UAcc.add ⟨p.total_videos, p.successful_downloads, p.failed_downloads,
              [.collection p]⟩ acc)
    else
      match opts? with
      | none => .error "AttributeError: NoneType object has no attribute get"
      | some opts =>
        match download_single_video dl (env.senv u) u opts.video opts.audio
            opts.subtitles with
        | .error e => .error e
        | .ok r =>
          match processUrls dl env opts? rest with
          | .error e => .error e
          | .ok acc =>
            .ok (UAcc.add ⟨1, if r.success then 1 else 0,
                  if r.success then 0 else 1, [.single r]⟩ acc)

structure BatchResult where
  date : String
  download_directory : String
  total_urls : Nat
  total_videos : Nat
  successful_downloads : Nat
  failed_downloads : Nat
  downloads : List DownloadItem
deriving Repr

def download_from_urls (dl : Downloader) (env : Env) (urls : List String)
    (opts? : Option DownloadOptions) : Except String BatchResult :=
  (processUrls dl env opts? urls).map (fun acc =>
    ⟨dl.current_date, dl.download_dir, urls.length, acc.total_videos,
     acc.succ, acc.fail, acc.items⟩)

/-! ## `GET /files/{date}/{folder}/{filename}`

`src/src/api.py`, lines 475–500 (`download_file`).  `fs p` tells whether a
file exists at the *resolved* absolute path `p` (so `os.path.exists` on a
relative path probes `fs (abspath cwd path)`).  Note the source checks
existence *before* the security check, and the security check is a bare
`str.startswith` on the canonicalised paths. -/

inductive FileResp where
  | notFound
  | forbidden
  | file (path : String)
deriving Repr, DecidableEq

def download_file (fs : String → Bool) (cwd date folder filename : String) :
    FileResp :=
  let file_path := pyJoin ["./download", date, folder, filename]
  if !(fs (abspath cwd file_path)) then .notFound
  else
    let abs_file_path := abspath cwd file_path
    let abs_download_dir := abspath cwd "./download"
    if !(strStartsWith abs_file_path abs_download_dir) then .forbidden
    else .file file_path

/-- Modelled from the spec: "403 if path escapes the configured root (must
canonicalize and prefix-check)" — a request escapes the root when its
canonicalised path is neither the root itself nor strictly inside it. -/
def spec_escapes_root (cwd rel : String) : Bool :=
  let af := abspath cwd rel
  let ad := abspath cwd "./download"
  !(af == ad || strStartsWith af (ad ++ "/"))

/-! ## Task registry

`src/src/api.py`: the `task_results` dict.  A record is modelled with one
`Option` field per key the handlers read or write (`none` = key absent). -/

structure TaskRecord where
  status : Option String
  url : Option String
  urls : Option (List String)
  created_at : Option String
  started_at : Option String
  completed_at : Option String
  error : Option String
deriving Repr, DecidableEq

def TaskRecord.blank : TaskRecord := ⟨none, none, none, none, none, none, none⟩

/-- `download_single`, lines 335–339: the record inserted at submission. -/
def pendingSingleRecord (url t : String) : TaskRecord :=
  { TaskRecord.blank with
    status := some "pending", url := some url, created_at := some t }

/-- `SingleVideoDownloadWorkflow.download_video`, lines 77–81: the worker
*replaces* the whole record (`task_results[task_id] = {...}`) with exactly
these three keys. -/
def processingRecord (url t : String) : TaskRecord :=
  { TaskRecord.blank with
    status := some "processing", started_at := some t, url := some url }

def Registry := String → Option TaskRecord

def setTask (m : Registry) (tid : String) (r : TaskRecord) : Registry :=
  fun k => if k = tid then some r else m k

/-- The registry write performed when the worker picks up a task (line 77). -/
def workerStart (m : Registry) (tid url t : String) : Registry :=
  setTask m tid (processingRecord url t)

/-- `list_tasks`, lines 534–537: the sort key
`x[1].get("created_at", x[1].get("started_at", ""))`. -/
def sortKey (r : TaskRecord) : String :=
  r.created_at.getD (r.started_at.getD "")

/-! ## CLI argument check

`src/main.py`, lines 6–18 and 23: `args.url` / `args.batch` are `None` when
absent; Python truthiness also treats `""` as absent.  After the
neither-given check, `if args.batch:` routes to batch mode — regardless of
whether `url` was also given. -/

def pyTruthy : Option String → Bool
  | none => false
  | some s => !(s == "")

inductive CliAction where
  | usageExit1
  | runBatch (file : String)
  | runSingle (url : String)
deriving Repr, DecidableEq

def main (url batch : Option String) : CliAction :=
  if !(pyTruthy url) && !(pyTruthy batch) then .usageExit1
  else if pyTruthy batch then .runBatch (batch.getD "")
  else .runSingle (url.getD "")

/-! ## Claim-side predicate and concrete fixtures -/

/-- The per-item guarantee claimed for `paths`: `video` is set only when
the video feature was requested, its yt-dlp call returned, and the file was
found at the expected path; unrequested features stay `none`. -/
def pathsInv (env : SEnv) (video audio : Bool) (p : Paths) : Prop :=
  (p.video.isSome = true →
     video = true ∧ env.downloadVideo = .ok () ∧ env.videoExists = true) ∧
  (video = false → p.video = none) ∧
  (audio = false → p.audio = none)

def cexDownloader : Downloader := Downloader.init "./download" "2026-10-12"

/-- A benign effect environment: every external call succeeds, the video
and audio files appear, no subtitle files appear. -/
def cexSEnv : SEnv :=
  ⟨"100", .ok "Title", .ok (), .ok (), true, fun _ => false, .ok (), true,
   .ok (), fun _ => false⟩

/-- Batch environment whose flat extraction returns one falsy entry. -/
def cexEnvFalsyEntry : Env := ⟨fun _ => cexSEnv, fun _ => .ok (some [none])⟩

/-- Batch environment whose flat extraction raises. -/
def cexEnvExtractErr : Env := ⟨fun _ => cexSEnv, fun _ => .error "boom"⟩

/-- Batch environment that never needs collection expansion. -/
def cexEnvPlain : Env := ⟨fun _ => cexSEnv, fun _ => .ok none⟩

/-- Filesystem containing exactly one file, a sibling of the download root
whose name extends the root's name. -/
def fsEvil : String → Bool := fun p => p == "/app/download_evil/x"

/-- The batch produced by one plain (non-collection) URL under `cexSEnv`
with all three features switched off. -/
def c1wBatch : BatchResult :=
  ⟨"2026-10-12", "./download/2026-10-12", 1, 1, 1, 0,
   [.single ⟨"https://www.tiktok.com/@u/video/1", "tiktok", "100", true,
             Paths.empty, none⟩]⟩

/-- The result produced for a plain YouTube URL under `cexSEnv` with
`video := true`, `audio := false`, `subtitles := true`. -/
def c6wResult : DownloadResult :=
  ⟨"https://youtu.be/abc", "youtube", "100", true,
   ⟨some "./download/2026-10-12/Title/video.mp4", none, []⟩, none⟩

def c8wUrl : String := "https://www.youtube.com/playlist?list=A"

def c10wRegistry : Registry :=
  fun _ => some (pendingSingleRecord "https://e.com/v" "2026-10-12T00:00:00")

/-! ## Helper lemmas -/

theorem UAcc.zero_add (b : UAcc) : UAcc.add ⟨0, 0, 0, []⟩ b = b := by
  cases b; simp [UAcc.add]

theorem UAcc.add_assoc (a b c : UAcc) :
    UAcc.add (UAcc.add a b) c = UAcc.add a (UAcc.add b c) := by
  cases a; cases b; cases c
  simp [UAcc.add, Nat.add_assoc, List.append_assoc]

theorem processEntries_le (dl : Downloader) (env : Env) (opts : DownloadOptions) :
    ∀ es : List (Option Entry),
      (processEntries dl env opts es).succ + (processEntries dl env opts es).fail ≤
        es.length
  | [] => by simp [processEntries]
  | none :: rest => by
      have ih := processEntries_le dl env opts rest
      simp only [processEntries, List.length_cons]
      omega
  | some e :: rest => by
      have ih := processEntries_le dl env opts rest
      simp only [processEntries, List.length_cons]
      cases hdl : download_single_video dl (env.senv (entryUrl e)) (entryUrl e)
          opts.video opts.audio opts.subtitles with
      | error ex => simp
      | ok r => cases hs : r.success <;> simp [hs] <;> omega

theorem playlist_counts_le (dl : Downloader) (env : Env) (url : String)
    (opts? : Option DownloadOptions) :
    (download_playlist_or_channel dl env url opts?).successful_downloads +
      (download_playlist_or_channel dl env url opts?).failed_downloads ≤
      (download_playlist_or_channel dl env url opts?).total_videos := by
  rcases hex : env.extract url with e | o
  · simp [download_playlist_or_channel, hex]
  · rcases o with _ | es
    · simp only [download_playlist_or_channel, hex]
      cases hdl : download_single_video dl (env.senv url) url
          (opts?.getD DownloadOptions.all).video (opts?.getD DownloadOptions.all).audio
          (opts?.getD DownloadOptions.all).subtitles with
      | error e => simp
      | ok r => cases hs : r.success <;> simp [hs]
    · simpa [download_playlist_or_channel, hex] using
        processEntries_le dl env (opts?.getD DownloadOptions.all) es

theorem processUrls_counts_le (dl : Downloader) (env : Env)
    (opts? : Option DownloadOptions) :
    ∀ (urls : List String) (acc : UAcc),
      processUrls dl env opts? urls = .ok acc →
      acc.succ + acc.fail ≤ acc.total_videos
  | [], acc => by
      intro h
      simp only [processUrls, Except.ok.injEq] at h
      subst h; simp
  | u :: rest, acc => by
      intro h
      cases hp : is_playlist_or_channel u with
      | true =>
        cases hrest : processUrls dl env opts? rest with
        | error e => simp [processUrls, hp, hrest] at h
        | ok acc' =>
          have ih := processUrls_counts_le dl env opts? rest acc' hrest
          have hpl := playlist_counts_le dl env u opts?
          simp only [processUrls, hp, if_true, hrest, Except.ok.injEq] at h
          subst h
          simp only [UAcc.add]
          omega
      | false =>
        cases opts? with
        | none => simp [processUrls, hp] at h
        | some opts =>
          cases hdl : download_single_video dl (env.senv u) u opts.video opts.audio
              opts.subtitles with
          | error e => simp [processUrls, hp, hdl] at h
          | ok r =>
            cases hrest : processUrls dl env (some opts) rest with
            | error e => simp [processUrls, hp, hdl, hrest] at h
            | ok acc' =>
              have ih := processUrls_counts_le dl env (some opts) rest acc' hrest
              simp only [processUrls, hp, Bool.false_eq_true, if_false, hdl, hrest,
                Except.ok.injEq] at h
              subst h
              cases hs : r.success <;> simp [UAcc.add, hs] <;> omega

theorem processUrls_no_collections (dl : Downloader) (env : Env)
    (opts? : Option DownloadOptions) :
    ∀ (urls : List String) (acc : UAcc),
      processUrls dl env opts? urls = .ok acc →
      (∀ u ∈ urls, is_playlist_or_channel u = false) →
      acc.total_videos = urls.length ∧ acc.succ + acc.fail = acc.total_videos
  | [], acc => by
      intro h _
      simp only [processUrls, Except.ok.injEq] at h
      subst h; simp
  | u :: rest, acc => by
      intro h hnc
      have hu : is_playlist_or_channel u = false := hnc u (by simp)
      cases opts? with
      | none => simp [processUrls, hu] at h
      | some opts =>
        cases hdl : download_single_video dl (env.senv u) u opts.video opts.audio
            opts.subtitles with
        | error e => simp [processUrls, hu, hdl] at h
        | ok r =>
          cases hrest : processUrls dl env (some opts) rest with
          | error e => simp [processUrls, hu, hdl, hrest] at h
          | ok acc' =>
            have ih := processUrls_no_collections dl env (some opts) rest acc' hrest
              (fun v hv => hnc v (by simp [hv]))
            simp only [processUrls, hu, Bool.false_eq_true, if_false, hdl, hrest,
              Except.ok.injEq] at h
            subst h
            cases hs : r.success <;> simp [UAcc.add, hs, List.length_cons] <;> omega

theorem processUrls_append (dl : Downloader) (env : Env)
    (opts? : Option DownloadOptions) :
    ∀ us vs : List String,
      processUrls dl env opts? (us ++ vs) =
        match processUrls dl env opts? us with
        | .error e => .error e
        | .ok a =>
          match processUrls dl env opts? vs with
          | .error e => .error e
          | .ok b => .ok (UAcc.add a b)
  | [], vs => by
      cases hv : processUrls dl env opts? vs <;>
        simp [processUrls, hv, UAcc.zero_add]
  | u :: us, vs => by
      have ih := processUrls_append dl env opts? us vs
      cases hp : is_playlist_or_channel u with
      | true =>
        cases h1 : processUrls dl env opts? us <;>
          cases h2 : processUrls dl env opts? vs <;>
            simp [processUrls, hp, h1, h2, ih, UAcc.add_assoc]
      | false =>
        cases opts? with
        | none => simp [processUrls, hp]
        | some opts =>
          cases hdl : download_single_video dl (env.senv u) u opts.video opts.audio
              opts.subtitles with
          | error e => simp [processUrls, hp, hdl]
          | ok r =>
            cases h1 : processUrls dl env (some opts) us <;>
              cases h2 : processUrls dl env (some opts) vs <;>
                simp [processUrls, hp, hdl, h1, h2, ih, UAcc.add_assoc]

theorem videoStep_ok (env : SEnv) (folder : String) (v s : Bool) (p : Paths)
    (h : videoStep env folder v s = .ok p) :
    (p.video.isSome = true →
       v = true ∧ env.downloadVideo = .ok () ∧ env.videoExists = true) ∧
    (v = false → p.video = none) ∧ p.audio = none := by
  cases v with
  | false =>
    simp only [videoStep, Bool.false_eq_true, if_false, Except.ok.injEq] at h
    subst h; simp [Paths.empty]
  | true =>
    cases hdv : env.downloadVideo with
    | error e => simp [videoStep, hdv] at h
    | ok u =>
      cases u
      simp only [videoStep, if_true, hdv, Except.ok.injEq] at h
      subst h
      cases hve : env.videoExists <;> simp [hve]

theorem videoStep_err (env : SEnv) (folder : String) (v s : Bool) (p : Paths)
    (e : String) (h : videoStep env folder v s = .error (p, e)) :
    p = Paths.empty := by
  cases v with
  | false => simp [videoStep] at h
  | true =>
    cases hdv : env.downloadVideo with
    | error e0 =>
      simp only [videoStep, if_true, hdv, Except.error.injEq, Prod.mk.injEq] at h
      exact h.1.symm
    | ok u => cases u; simp [videoStep, hdv] at h

theorem audioStep_ok (env : SEnv) (folder : String) (a : Bool) (p0 p : Paths)
    (h : audioStep env folder a p0 = .ok p) :
    p.video = p0.video ∧ (a = false → p = p0) := by
  cases a with
  | false =>
    simp only [audioStep, Bool.false_eq_true, if_false, Except.ok.injEq] at h
    subst h; simp
  | true =>
    cases hda : env.downloadAudio with
    | error e => simp [audioStep, hda] at h
    | ok u =>
      cases u
      cases hae : env.audioExists <;>
        simp only [audioStep, if_true, hda, hae, Bool.false_eq_true, if_false,
          Except.ok.injEq] at h <;>
        subst h <;> simp

theorem audioStep_err (env : SEnv) (folder : String) (a : Bool) (p0 p : Paths)
    (e : String) (h : audioStep env folder a p0 = .error (p, e)) :
    p = p0 := by
  cases a with
  | false => simp [audioStep] at h
  | true =>
    cases hda : env.downloadAudio with
    | error e0 =>
      simp only [audioStep, if_true, hda, Except.error.injEq, Prod.mk.injEq] at h
      exact h.1.symm
    | ok u => cases u; cases hae : env.audioExists <;> simp [audioStep, hda, hae] at h

theorem subsStep_ok (env : SEnv) (folder : String) (s : Bool) (p0 p : Paths)
    (h : subsStep env folder s p0 = .ok p) :
    p.video = p0.video ∧ p.audio = p0.audio := by
  cases hc : s && p0.subtitles.isEmpty with
  | false =>
    simp only [subsStep, hc, Bool.false_eq_true, if_false, Except.ok.injEq] at h
    subst h; simp
  | true =>
    cases hds : env.downloadSubs with
    | error e => simp [subsStep, hc, hds] at h
    | ok u =>
      cases u
      simp only [subsStep, hc, if_true, hds, Except.ok.injEq] at h
      subst h; simp

theorem subsStep_err (env : SEnv) (folder : String) (s : Bool) (p0 p : Paths)
    (e : String) (h : subsStep env folder s p0 = .error (p, e)) :
    p = p0 := by
  cases hc : s && p0.subtitles.isEmpty with
  | false => simp [subsStep, hc] at h
  | true =>
    cases hds : env.downloadSubs with
    | error e0 =>
      simp only [subsStep, hc, if_true, hds, Except.error.injEq, Prod.mk.injEq] at h
      exact h.1.symm
    | ok u => cases u; simp [subsStep, hc, hds] at h

theorem pathsInv_empty (env : SEnv) (v a : Bool) : pathsInv env v a Paths.empty := by
  simp [pathsInv, Paths.empty]

theorem tryBody_pathsInv (dl : Downloader) (env : SEnv) (v a s : Bool) :
    (∀ p, tryBody dl env v a s = .ok p → pathsInv env v a p) ∧
    (∀ p e, tryBody dl env v a s = .error (p, e) → pathsInv env v a p) := by
  cases het : env.extractTitle with
  | error e0 =>
    refine ⟨fun p h => ?_, fun p e h => ?_⟩ <;>
      simp only [tryBody, het, Except.error.injEq, Prod.mk.injEq] at h
    · exact absurd h (by simp)
    · rw [← h.1]; exact pathsInv_empty env v a
  | ok title =>
    cases hmk : env.mkdirOk with
    | error e0 =>
      refine ⟨fun p h => ?_, fun p e h => ?_⟩ <;>
        simp only [tryBody, het, hmk, Except.error.injEq, Prod.mk.injEq] at h
      · exact absurd h (by simp)
      · rw [← h.1]; exact pathsInv_empty env v a
    | ok u0 =>
      cases u0
      cases hvs : videoStep env (pyJoin2 dl.download_dir (safe_title title)) v s with
      | error pe =>
        obtain ⟨p1, e1⟩ := pe
        have hp1 := videoStep_err env _ v s p1 e1 hvs
        refine ⟨fun p h => ?_, fun p e h => ?_⟩ <;>
          simp only [tryBody, het, hmk, hvs, Except.error.injEq] at h
        · exact absurd h (by simp)
        · obtain ⟨rfl, rfl⟩ : p1 = p ∧ e1 = e := by
            constructor <;> [exact congrArg Prod.fst h; exact congrArg Prod.snd h]
          rw [hp1]; exact pathsInv_empty env v a
      | ok p1 =>
        have hv1 := videoStep_ok env _ v s p1 hvs
        cases has : audioStep env (pyJoin2 dl.download_dir (safe_title title)) a p1 with
        | error pe =>
          obtain ⟨p2, e2⟩ := pe
          have hp2 := audioStep_err env _ a p1 p2 e2 has
          subst hp2
          refine ⟨fun p h => ?_, fun p e h => ?_⟩ <;>
            simp only [tryBody, het, hmk, hvs, has, Except.error.injEq] at h
          · exact absurd h (by simp)
          · injection h with h1 h2
            subst h1
            exact ⟨hv1.1, hv1.2.1, fun _ => hv1.2.2⟩
        | ok p2 =>
          have ha2 := audioStep_ok env _ a p1 p2 has
          have hinv2 : pathsInv env v a p2 := by
            refine ⟨?_, ?_, ?_⟩
            · rw [ha2.1]; exact hv1.1
            · intro hvf; rw [ha2.1]; exact hv1.2.1 hvf
            · intro haf; rw [ha2.2 haf]; exact hv1.2.2
          cases hss : subsStep env (pyJoin2 dl.download_dir (safe_title title)) s p2 with
          | error pe =>
            obtain ⟨p3, e3⟩ := pe
            have hp3 := subsStep_err env _ s p2 p3 e3 hss
            subst hp3
            refine ⟨fun p h => ?_, fun p e h => ?_⟩ <;>
              simp only [tryBody, het, hmk, hvs, has, hss, Except.error.injEq] at h
            · exact absurd h (by simp)
            · injection h with h1 h2
              subst h1
              exact hinv2
          | ok p3 =>
            have hs3 := subsStep_ok env _ s p2 p3 hss
            have hinv3 : pathsInv env v a p3 := by
              refine ⟨?_, ?_, ?_⟩
              · rw [hs3.1]; exact hinv2.1
              · intro hvf; rw [hs3.1]; exact hinv2.2.1 hvf
              · intro haf; rw [hs3.2]; exact hinv2.2.2 haf
            refine ⟨fun p h => ?_, fun p e h => ?_⟩ <;>
              simp only [tryBody, het, hmk, hvs, has, hss, Except.ok.injEq] at h
            · rw [← h]; exact hinv3
            · exact absurd h (by simp)

/-! ## Claims -/

/-- Claim C1, counterexample: a completed `download_from_urls` batch whose
single collection URL expands to one falsy entry has `total_videos = 1`
but `successful_downloads + failed_downloads = 0` — the entry is skipped by
`if entry:` while `total_videos` already counted it, so the claimed
equality fails on this completed batch. -/
theorem c1_batch_sum_invariant_cex :
    (download_from_urls cexDownloader cexEnvFalsyEntry
        ["https://www.youtube.com/playlist?list=PL1"] none).map
      (fun b => (b.total_videos, b.successful_downloads + b.failed_downloads)) =
      .ok (1, 0) := by rfl

/-- Claim C1 (amended): for every completed batch invocation of
`download_from_urls`, `successful_downloads + failed_downloads ≤
total_videos`; and for a batch of N non-collection URLs, `total_videos = N`
and `successful_downloads + failed_downloads = total_videos`. -/
theorem c1_batch_sum_invariant (dl : Downloader) (env : Env)
    (urls : List String) (opts? : Option DownloadOptions) (b : BatchResult)
    (h : download_from_urls dl env urls opts? = .ok b) :
    b.successful_downloads + b.failed_downloads ≤ b.total_videos ∧
    ((∀ u ∈ urls, is_playlist_or_channel u = false) →
      b.total_videos = urls.length ∧
      b.successful_downloads + b.failed_downloads = b.total_videos) := by
  cases hpu : processUrls dl env opts? urls with
  | error e => simp [download_from_urls, hpu, Except.map] at h
  | ok acc =>
    simp only [download_from_urls, hpu, Except.map, Except.ok.injEq] at h
    subst h
    exact ⟨processUrls_counts_le dl env opts? urls acc hpu,
      fun hnc => processUrls_no_collections dl env opts? urls acc hpu hnc⟩

/-- Witness for C1: a concrete completed batch of one non-collection URL. -/
theorem c1_batch_sum_invariant_witness :
    download_from_urls cexDownloader cexEnvPlain
      ["https://www.tiktok.com/@u/video/1"] (some ⟨false, false, false⟩) =
      .ok c1wBatch ∧
    c1wBatch.total_videos = 1 ∧
    c1wBatch.successful_downloads + c1wBatch.failed_downloads =
      c1wBatch.total_videos := by
  have hb : download_from_urls cexDownloader cexEnvPlain
      ["https://www.tiktok.com/@u/video/1"] (some ⟨false, false, false⟩) =
      .ok c1wBatch := by rfl
  have h := c1_batch_sum_invariant cexDownloader cexEnvPlain
    ["https://www.tiktok.com/@u/video/1"] (some ⟨false, false, false⟩) c1wBatch hb
  exact ⟨hb, (h.2 (by decide)).1, (h.2 (by decide)).2⟩

/-- Claim C2, code bug: the `GET /files/{date}/{folder}/{filename}` handler
canonicalises and prefix-checks with a bare `str.startswith` and checks
existence first, so (i) the escaping resolved path
`/app/download_evil/x` (a sibling of the root whose name extends
`/app/download`) passes the check and the file is served, and (ii) an
escaping path that does not exist yields 404, not 403. -/
theorem c2_path_traversal_bug :
    spec_escapes_root "/app" (pyJoin ["./download", "..", "download_evil", "x"]) =
      true ∧
    download_file fsEvil "/app" ".." "download_evil" "x" =
      .file "./download/../download_evil/x" ∧
    spec_escapes_root "/app" (pyJoin ["./download", "..", "..", "passwd"]) = true ∧
    download_file (fun _ => false) "/app" ".." ".." "passwd" = .notFound := by
  refine ⟨?_, ?_, ?_, ?_⟩ <;> rfl

/-- Claim C3, code bug: `download_single_video` calls `identify_platform`
before entering its `try` block, so the `ValueError` raised by `urlparse`
on `"http://["` propagates to the caller instead of being returned as a
`DownloadResult` with `success = false`. -/
theorem c3_exception_propagates_bug :
    download_single_video cexDownloader cexSEnv "http://[" true true true =
      .error "Invalid IPv6 URL" := by rfl

/-- Claim C4, counterexample: the hostname `tiktok.com.instagram.com`
contains `"instagram.com"`, yet `identify_platform` returns `"tiktok"`,
because the substring rules are tried in a fixed order and `"tiktok.com"`
also matches — so the claim's `instagram` clause fails as a universal. -/
theorem c4_platform_table_cex :
    pyNetloc "http://tiktok.com.instagram.com/p" =
      .ok "tiktok.com.instagram.com" ∧
    hasSub (strLower "tiktok.com.instagram.com") "instagram.com" = true ∧
    identify_platform "http://tiktok.com.instagram.com/p" = .ok "tiktok" ∧
    "tiktok" ≠ "instagram" := by
  refine ⟨?_, ?_, ?_, ?_⟩ <;> first | rfl | decide

/-- Claim C4 (amended): the substring table is applied in source order —
each platform tag is returned when its substrings match the lowercased
hostname and no earlier rule matched; if none of the eight substrings
match, the result is `"unknown"`. -/
theorem c4_platform_table (url d : String) (h : pyNetloc url = .ok d) :
    (hasSub (strLower d) "tiktok.com" = true →
      identify_platform url = .ok "tiktok") ∧
    (hasSub (strLower d) "tiktok.com" = false →
      hasSub (strLower d) "instagram.com" = true →
      identify_platform url = .ok "instagram") ∧
    (hasSub (strLower d) "tiktok.com" = false →
      hasSub (strLower d) "instagram.com" = false →
      (hasSub (strLower d) "facebook.com" || hasSub (strLower d) "fb.com") = true →
      identify_platform url = .ok "facebook") ∧
    (hasSub (strLower d) "tiktok.com" = false →
      hasSub (strLower d) "instagram.com" = false →
      hasSub (strLower d) "facebook.com" = false →
      hasSub (strLower d) "fb.com" = false →
      (hasSub (strLower d) "youtube.com" || hasSub (strLower d) "youtu.be") = true →
      identify_platform url = .ok "youtube") ∧
    (hasSub (strLower d) "tiktok.com" = false →
      hasSub (strLower d) "instagram.com" = false →
      hasSub (strLower d) "facebook.com" = false →
      hasSub (strLower d) "fb.com" = false →
      hasSub (strLower d) "youtube.com" = false →
      hasSub (strLower d) "youtu.be" = false →
      (hasSub (strLower d) "twitter.com" || hasSub (strLower d) "x.com") = true →
      identify_platform url = .ok "twitter") ∧
    (hasSub (strLower d) "tiktok.com" = false →
      hasSub (strLower d) "instagram.com" = false →
      hasSub (strLower d) "facebook.com" = false →
      hasSub (strLower d) "fb.com" = false →
      hasSub (strLower d) "youtube.com" = false →
      hasSub (strLower d) "youtu.be" = false →
      hasSub (strLower d) "twitter.com" = false →
      hasSub (strLower d) "x.com" = false →
      identify_platform url = .ok "unknown") := by
  have hipf : identify_platform url = .ok (classify (strLower d)) := by
    simp [identify_platform, h, Except.map]
  refine ⟨fun h1 => ?_, fun h1 h2 => ?_, fun h1 h2 h3 => ?_,
    fun h1 h2 h3 h4 h5 => ?_, fun h1 h2 h3 h4 h5 h6 h7 => ?_,
    fun h1 h2 h3 h4 h5 h6 h7 h8 => ?_⟩ <;>
  · rw [hipf]
    simp [classify, *]

/-- Witness for C4: a well-formed TikTok URL hits the first rule. -/
theorem c4_platform_table_witness :
    pyNetloc "https://www.tiktok.com/@user/video/123" = .ok "www.tiktok.com" ∧
    identify_platform "https://www.tiktok.com/@user/video/123" = .ok "tiktok" := by
  have hn : pyNetloc "https://www.tiktok.com/@user/video/123" =
      .ok "www.tiktok.com" := by rfl
  refine ⟨hn, (c4_platform_table "https://www.tiktok.com/@user/video/123"
    "www.tiktok.com" hn).1 (by rfl)⟩

/-- Claim C5, code bug: `identify_platform` is claimed never to raise, but
`urlparse` raises `ValueError("Invalid IPv6 URL")` on `"http://["` and the
function has no handler, so the exception escapes instead of mapping to
`"unknown"`. -/
theorem c5_identify_platform_raises_bug :
    identify_platform "http://[" = .error "Invalid IPv6 URL" := by rfl

/-- Claim C6 (confirmed): in every `DownloadResult` the single-item
downloader returns, `paths.video` is non-null only if video was requested,
its yt-dlp call returned, and the file existed at the expected path; when
video is not requested `paths.video` stays null, and when audio is not
requested `paths.audio` stays null. -/
theorem c6_paths_only_if_requested (dl : Downloader) (env : SEnv) (url : String)
    (video audio subtitles : Bool) (r : DownloadResult)
    (h : download_single_video dl env url video audio subtitles = .ok r) :
    (r.paths.video.isSome = true →
      video = true ∧ env.downloadVideo = .ok () ∧ env.videoExists = true) ∧
    (video = false → r.paths.video = none) ∧
    (audio = false → r.paths.audio = none) := by
  cases hip : identify_platform url with
  | error e => simp [download_single_video, hip] at h
  | ok platform =>
    have htb := tryBody_pathsInv dl env video audio subtitles
    cases htr : tryBody dl env video audio subtitles with
    | ok p =>
      simp only [download_single_video, hip, htr, Except.ok.injEq] at h
      subst h
      exact htb.1 p htr
    | error pe =>
      obtain ⟨p, e⟩ := pe
      simp only [download_single_video, hip, htr, Except.ok.injEq] at h
      subst h
      exact htb.2 p e htr

/-- Witness for C6: a concrete download with video requested and audio not
requested. -/
theorem c6_paths_only_if_requested_witness :
    download_single_video cexDownloader cexSEnv "https://youtu.be/abc"
      true false true = .ok c6wResult ∧
    c6wResult.paths.audio = none ∧
    c6wResult.paths.video.isSome = true ∧ cexSEnv.videoExists = true := by
  have hr : download_single_video cexDownloader cexSEnv "https://youtu.be/abc"
      true false true = .ok c6wResult := by rfl
  have h := c6_paths_only_if_requested cexDownloader cexSEnv "https://youtu.be/abc"
    true false true c6wResult hr
  exact ⟨hr, h.2.2 rfl, rfl, (h.1 rfl).2.2⟩

/-- Claim C7 (confirmed): the sanitised folder name contains only
alphanumerics, spaces, hyphens and underscores, and never exceeds 100
characters. -/
theorem c7_safe_title_charset_length (title : String) :
    (safe_title title).data.all allowedChar = true ∧
    (safe_title title).length ≤ 100 := by
  constructor
  · rw [List.all_eq_true]
    intro c hc
    have h1 : c ∈ (title.data.filter allowedChar).reverse.dropWhile
        Char.isWhitespace := by
      have h2 := List.take_subset 100 _ hc
      exact (List.mem_reverse).mp h2
    have h3 : c ∈ (title.data.filter allowedChar).reverse :=
      (List.dropWhile_sublist _).subset h1
    exact List.of_mem_filter ((List.mem_reverse).mp h3)
  · show (_ : List Char).length ≤ 100
    rw [List.length_take]
    exact Nat.min_le_left _ _

/-- Claim C8 (confirmed): a collection URL whose member enumeration fails
contributes zero to every batch counter and carries an error annotation;
the orchestrator still processes all subsequent URLs (the batch over
`u :: rest` is the batch over `rest` with the zero-count error entry
prepended); and the aggregation counters are monotone in the input list. -/
theorem c8_collection_error_isolation (dl : Downloader) (env : Env)
    (opts? : Option DownloadOptions) :
    (∀ u msg, is_playlist_or_channel u = true → env.extract u = .error msg →
      (download_playlist_or_channel dl env u opts?).total_videos = 0 ∧
      (download_playlist_or_channel dl env u opts?).successful_downloads = 0 ∧
      (download_playlist_or_channel dl env u opts?).failed_downloads = 0 ∧
      (download_playlist_or_channel dl env u opts?).error = some msg ∧
      (∀ rest b', download_from_urls dl env rest opts? = .ok b' →
        download_from_urls dl env (u :: rest) opts? =
          .ok ⟨dl.current_date, dl.download_dir, rest.length + 1,
               b'.total_videos, b'.successful_downloads, b'.failed_downloads,
               .collection (download_playlist_or_channel dl env u opts?) ::
                 b'.downloads⟩)) ∧
    (∀ us vs b1 b2,
      download_from_urls dl env us opts? = .ok b1 →
      download_from_urls dl env (us ++ vs) opts? = .ok b2 →
      b1.total_videos ≤ b2.total_videos ∧
      b1.successful_downloads ≤ b2.successful_downloads ∧
      b1.failed_downloads ≤ b2.failed_downloads) := by
  constructor
  · intro u msg hpl hex
    have hplc : download_playlist_or_channel dl env u opts? =
        ⟨u, if hasSub u "playlist" then "playlist" else "channel",
         0, 0, 0, [], some msg⟩ := by
      simp [download_playlist_or_channel, hex]
    refine ⟨by rw [hplc], by rw [hplc], by rw [hplc], by rw [hplc], ?_⟩
    intro rest b' hb'
    cases hacc : processUrls dl env opts? rest with
    | error e => simp [download_from_urls, hacc, Except.map] at hb'
    | ok acc =>
      simp only [download_from_urls, hacc, Except.map, Except.ok.injEq] at hb'
      subst hb'
      simp only [download_from_urls, processUrls, hpl, if_true, hacc, Except.map,
        Except.ok.injEq]
      rw [hplc]
      simp [UAcc.add, List.length_cons]
  · intro us vs b1 b2 h1 h2
    cases ha : processUrls dl env opts? us with
    | error e => simp [download_from_urls, ha, Except.map] at h1
    | ok a =>
      cases hb : processUrls dl env opts? vs with
      | error e =>
        have happ := processUrls_append dl env opts? us vs
        simp only [ha, hb] at happ
        simp [download_from_urls, happ, Except.map] at h2
      | ok bAcc =>
        have happ := processUrls_append dl env opts? us vs
        simp only [ha, hb] at happ
        simp only [download_from_urls, ha, happ, Except.map, Except.ok.injEq]
          at h1 h2
        subst h1
        subst h2
        simp [UAcc.add]

/-- Witness for C8: a concrete collection URL whose extraction raises
`"boom"`, inside a batch of one URL. -/
theorem c8_collection_error_isolation_witness :
    (download_playlist_or_channel cexDownloader cexEnvExtractErr c8wUrl
      none).total_videos = 0 ∧
    (download_playlist_or_channel cexDownloader cexEnvExtractErr c8wUrl
      none).error = some "boom" ∧
    download_from_urls cexDownloader cexEnvExtractErr [c8wUrl] none =
      .ok ⟨"2026-10-12", "./download/2026-10-12", 1, 0, 0, 0,
           [.collection (download_playlist_or_channel cexDownloader
              cexEnvExtractErr c8wUrl none)]⟩ := by
  have h := (c8_collection_error_isolation cexDownloader cexEnvExtractErr none).1
    c8wUrl "boom" (by rfl) (by rfl)
  refine ⟨h.1, h.2.2.2.1, ?_⟩
  have hcons := h.2.2.2.2 []
    ⟨"2026-10-12", "./download/2026-10-12", 0, 0, 0, 0, []⟩ (by rfl)
  simpa using hcons

/-- Claim C9, counterexample: when both the positional `url` and `--batch`
are given, the CLI does not exit with status 1 — it silently runs batch
mode and ignores `url`, so "exactly one must be given; otherwise exit 1"
fails. -/
theorem c9_cli_arg_check_cex :
    main (some "https://example.com/v") (some "urls.txt") = .runBatch "urls.txt" ∧
    main (some "https://example.com/v") (some "urls.txt") ≠ .usageExit1 := by
  refine ⟨by rfl, by decide⟩

/-- Claim C9 (amended): the CLI exits with status 1 and prints usage iff
neither `url` nor `--batch` is given (an empty string counting as not
given); when `--batch` is given it takes precedence, the positional `url`
being ignored; a lone non-empty `url` runs single mode. -/
theorem c9_cli_arg_check (u b : Option String) :
    (main u b = .usageExit1 ↔ pyTruthy u = false ∧ pyTruthy b = false) ∧
    (∀ f, b = some f → f ≠ "" → main u b = .runBatch f) ∧
    (∀ s, u = some s → s ≠ "" → pyTruthy b = false → main u b = .runSingle s) := by
  refine ⟨?_, ?_, ?_⟩
  · cases hu : pyTruthy u <;> cases hb : pyTruthy b <;>
      simp [main, hu, hb]
  · intro f hf hne
    subst hf
    have hbt : pyTruthy (some f) = true := by
      simp [pyTruthy]
      exact hne
    simp [main, hbt]
  · intro s hs hne hb
    subst hs
    have hut : pyTruthy (some s) = true := by
      simp [pyTruthy]
      exact hne
    simp [main, hut, hb]

/-- Witness for C9: the three dispatch outcomes at concrete arguments. -/
theorem c9_cli_arg_check_witness :
    main none none = .usageExit1 ∧
    main (some "https://e.com/v") (some "f.txt") = .runBatch "f.txt" ∧
    main (some "https://e.com/v") none = .runSingle "https://e.com/v" := by
  refine ⟨?_, ?_, ?_⟩
  · exact (c9_cli_arg_check none none).1.mpr ⟨rfl, rfl⟩
  · exact (c9_cli_arg_check (some "https://e.com/v") (some "f.txt")).2.1
      "f.txt" rfl (by decide)
  · exact (c9_cli_arg_check (some "https://e.com/v") none).2.2
      "https://e.com/v" rfl (by decide) rfl

/-- Claim C10 (confirmed): when the worker moves a pending task to
processing it replaces the whole registry record with a fresh mapping of
exactly `status`, `started_at` and `url`; the `created_at` written at
submission is gone, so the `/tasks` sort key for such a task is its
`started_at`. -/
theorem c10_processing_replaces_record (m : Registry) (tid url0 t0 url t : String)
    (hpending : m tid = some (pendingSingleRecord url0 t0)) :
    workerStart m tid url t tid = some (processingRecord url t) ∧
    (processingRecord url t).created_at = none ∧
    (processingRecord url t).status = some "processing" ∧
    (processingRecord url t).started_at = some t ∧
    (processingRecord url t).url = some url ∧
    sortKey (processingRecord url t) = t := by
  refine ⟨?_, rfl, rfl, rfl, rfl, rfl⟩
  simp [workerStart, setTask]

/-- Witness for C10: a concrete pending task picked up by the worker. -/
theorem c10_processing_replaces_record_witness :
    workerStart c10wRegistry "t1" "https://e.com/v" "2026-10-12T00:00:05" "t1" =
      some (processingRecord "https://e.com/v" "2026-10-12T00:00:05") ∧
    (processingRecord "https://e.com/v" "2026-10-12T00:00:05").created_at = none ∧
    sortKey (processingRecord "https://e.com/v" "2026-10-12T00:00:05") =
      "2026-10-12T00:00:05" := by
  have h := c10_processing_replaces_record c10wRegistry "t1" "https://e.com/v"
    "2026-10-12T00:00:00" "https://e.com/v" "2026-10-12T00:00:05" rfl
  exact ⟨h.1, h.2.1, h.2.2.2.2.2⟩

end SocialVideoCrawl
